import Mathlib

/-!
Verification of the multi-account polling-and-broadcast core of the
extended-broadcaster repository.

The definitions below are a shallow embedding of the Python source:

* `Json`, `dumps`, `data_changed`   — `backend/main.py`, `data_changed` and
  `json.dumps(..., sort_keys=True)` (the change detector);
* `fetch_account_api`               — `backend/main.py` (the exchange gateway);
* `poll_account_fast_data`, `poll_account_orders`, `poll_account_trades`
                                    — `backend/main.py` (the pollers);
* `broadcastSweep`, `broadcast_to_clients` — `backend/main.py` (the hub);
* `reconnect_delay`, `reconnect_sleep` — `backend/main.py`
  (`orderbook_websocket_client` backoff);
* `AlertState`, `get_threshold_level`, `check_and_alert`
                                    — `backend/margin_alerts.py`;
* `upsertPosition`, `save_positions_history` — `backend/trade_history.py`.

Python `None` and JSON `null` are the same value in the source (both are
Python `None`), so both are modelled by `Json.null`.  JSON numbers are
modelled as integers (`Int`): the claims under study never depend on
floating-point formatting of numeric payloads.  Wall-clock instants are
modelled as exact integer minutes (`Int`) for the alert cooldown logic and
as rationals elsewhere; Python `datetime` arithmetic is exact, so this is
faithful for every comparison the code performs.
-/

/-- JSON-shaped values as handled by the broadcaster.  Python `None` (also
the parse of JSON `null`) is `Json.null`; numeric payloads are modelled as
integers. -/
inductive Json where
  | null : Json
  | bool (b : Bool) : Json
  | num (n : Int) : Json
  | str (s : String) : Json
  | arr (xs : List Json) : Json
  | obj (kvs : List (String × Json)) : Json

/-- Test for Python `None` (`x is None`). -/
def Json.isNull : Json → Bool
  | .null => true
  | _ => false

/-- Code-point lexicographic comparison of character lists; this is how
Python compares `str` keys in `sorted`. -/
def charListLe : List Char → List Char → Bool
  | [], _ => true
  | _ :: _, [] => false
  | a :: as, b :: bs =>
    if a.val < b.val then true
    else if b.val < a.val then false
    else charListLe as bs

/-- Code-point lexicographic `≤` on strings, as used by Python `sorted` on
dict keys. -/
def strLe (a b : String) : Bool := charListLe a.toList b.toList

/-- Insert a (key, rendered fragment) pair into a key-sorted list. -/
def insertByKey (p : String × String) : List (String × String) → List (String × String)
  | [] => [p]
  | q :: qs => if strLe p.1 q.1 then p :: q :: qs else q :: insertByKey p qs

/-- Sort (key, rendered fragment) pairs by key, as `sort_keys=True` does for
the items of a JSON object. -/
def sortPairs : List (String × String) → List (String × String)
  | [] => []
  | p :: ps => insertByKey p (sortPairs ps)

/-- Hexadecimal digit character, lower case, as in Python `\uXXXX` escapes. -/
def hexDigit (n : Nat) : Char :=
  if n < 10 then Char.ofNat (48 + n) else Char.ofNat (87 + n)

/-- Four-digit lower-case hexadecimal rendering of a code unit. -/
def hex4 (n : Nat) : String :=
  String.mk [hexDigit (n / 4096 % 16), hexDigit (n / 256 % 16), hexDigit (n / 16 % 16), hexDigit (n % 16)]

/-- Escape one character the way `json.dumps` (default `ensure_ascii=True`)
does: quote and backslash get a backslash, the common control characters get
their short escapes, every other character outside printable ASCII becomes
`\uXXXX` (with a surrogate pair above the basic plane). -/
def escapeChar (c : Char) : String :=
  if c = '"' then "\\\""
  else if c = '\\' then "\\\\"
  else if c = '\n' then "\\n"
  else if c = '\t' then "\\t"
  else if c = '\r' then "\\r"
  else if c.toNat = 8 then "\\b"
  else if c.toNat = 12 then "\\f"
  else if c.toNat < 32 ∨ c.toNat > 126 then
    if c.toNat < 65536 then "\\u" ++ hex4 c.toNat
    else "\\u" ++ hex4 (55296 + (c.toNat - 65536) / 1024) ++ "\\u" ++ hex4 (56320 + (c.toNat - 65536) % 1024)
  else String.mk [c]

/-- Serialize a string with surrounding quotes, as `json.dumps` renders
string scalars and object keys. -/
def escapeStr (s : String) : String :=
  "\"" ++ String.join (s.toList.map escapeChar) ++ "\""

mutual
/-- Canonical serialization of a `Json` value: `json.dumps(x, sort_keys=True)`
with the default separators `", "` and `": "`.  Object items are rendered and
then ordered by key (`sortPairs`), which produces the same text as Python's
sort-then-render. -/
def dumps : Json → String
  | .null => "null"
  | .bool true => "true"
  | .bool false => "false"
  | .num n => toString n
  | .str s => escapeStr s
  | .arr xs => "[" ++ String.intercalate ", " (dumpsElems xs) ++ "]"
  | .obj kvs => "\x7b" ++ String.intercalate ", " ((sortPairs (dumpsPairs kvs)).map (fun p => p.2)) ++ "\x7d"

/-- Rendered fragments of the elements of a JSON array, in order. -/
def dumpsElems : List Json → List String
  | [] => []
  | x :: xs => dumps x :: dumpsElems xs

/-- For each object item, its key together with its rendered
`"key": value` fragment. -/
def dumpsPairs : List (String × Json) → List (String × String)
  | [] => []
  | (k, v) :: kvs => (k, escapeStr k ++ ": " ++ dumps v) :: dumpsPairs kvs
end

/-- Change detector from `backend/main.py` (`data_changed`): `None` versus
present is always a change, otherwise two values differ exactly when their
canonical key-sorted serializations differ. -/
def data_changed (old_data new_data : Json) : Bool :=
  if old_data.isNull && !new_data.isNull then true
  else if !old_data.isNull && new_data.isNull then true
  else dumps old_data != dumps new_data

theorem Json.isNull_iff (j : Json) : j.isNull = true ↔ j = Json.null := by
  cases j <;> simp [Json.isNull]

theorem data_changed_null_null : data_changed Json.null Json.null = false := by
  simp [data_changed, Json.isNull, dumps]

/-- Claim C3: the change detector reports a change exactly when one side is
absent (`None`) and the other present, or when the canonical key-sorted
serializations differ in any byte; in particular it is insensitive to object
key ordering, so `{"a":1,"b":2}` versus `{"b":2,"a":1}` is unchanged. -/
theorem data_changed_characterisation :
    (∀ o n : Json,
      data_changed o n = true ↔
        ((o = Json.null ∧ n ≠ Json.null) ∨ (o ≠ Json.null ∧ n = Json.null) ∨
          dumps o ≠ dumps n)) ∧
    data_changed (Json.obj [("a", Json.num 1), ("b", Json.num 2)])
        (Json.obj [("b", Json.num 2), ("a", Json.num 1)]) = false := by
  constructor
  · intro o n
    by_cases ho : o = Json.null <;> by_cases hn : n = Json.null
    · subst ho; subst hn
      simp [data_changed, Json.isNull]
    · subst ho
      have hn' : n.isNull = false := by
        cases h : n.isNull
        · rfl
        · exact absurd ((Json.isNull_iff n).mp h) hn
      simp [data_changed, Json.isNull, hn', hn]
    · subst hn
      have ho' : o.isNull = false := by
        cases h : o.isNull
        · rfl
        · exact absurd ((Json.isNull_iff o).mp h) ho
      simp [data_changed, Json.isNull, ho', ho]
    · have ho' : o.isNull = false := by
        cases h : o.isNull
        · rfl
        · exact absurd ((Json.isNull_iff o).mp h) ho
      have hn' : n.isNull = false := by
        cases h : n.isNull
        · rfl
        · exact absurd ((Json.isNull_iff n).mp h) hn
      simp [data_changed, ho', hn', ho, hn]
  · decide

/-- Witness for C3: the characterisation applied at a concrete pair — a
`None`-to-present transition is reported as changed. -/
theorem data_changed_characterisation_witness :
    data_changed Json.null (Json.num 3) = true :=
  (data_changed_characterisation.1 Json.null (Json.num 3)).mpr
    (Or.inl ⟨rfl, by simp⟩)

theorem bne_symm_of_lawful {α : Type} [BEq α] [LawfulBEq α] (a b : α) :
    (a != b) = (b != a) := by
  by_cases h : a = b
  · subst h; rfl
  · have h1 : (a == b) = false := beq_eq_false_iff_ne.mpr h
    have h2 : (b == a) = false := beq_eq_false_iff_ne.mpr (Ne.symm h)
    simp [bne, h1, h2]

/-- Claim C10: the change detector is symmetric, and comparing two absent
values is not a change. -/
theorem data_changed_symm :
    (∀ o n : Json, data_changed o n = data_changed n o) ∧
    data_changed Json.null Json.null = false := by
  constructor
  · intro o n
    unfold data_changed
    cases ho : o.isNull <;> cases hn : n.isNull <;> simp [ho, hn] <;>
      exact bne_symm_of_lawful _ _
  · exact data_changed_null_null

/-- Outcome of the HTTP GET issued inside `fetch_account_api`
(`backend/main.py`): either the server produced a response with a status and
a parsed JSON body, or the attempt raised (timeout, connection reset, proxy
failure, body-parse error — all caught by the surrounding `except`). -/
inductive HttpOutcome where
  | response (status : Nat) (body : Json) : HttpOutcome
  | raised : HttpOutcome

/-- Exchange gateway from `backend/main.py` (`fetch_account_api`): the parsed
body is returned only for HTTP status 200; every other status is logged and
yields `none`, and a raised transport error is caught and yields `none`.
Totality of this function is the embedding of "never raises to the
caller". -/
def fetch_account_api : HttpOutcome → Option Json
  | .response s b => if s = 200 then some b else none
  | .raised => none

/-- Counterexample to claim C6 as stated: a 201 response is a 2xx success,
yet the gateway returns `none` rather than the parsed body, because the code
tests `status == 200`, not the 2xx class. -/
theorem fetch_account_api_counterexample :
    200 ≤ 201 ∧ 201 < 300 ∧
      fetch_account_api (HttpOutcome.response 201 (Json.num 1)) = none ∧
      fetch_account_api (HttpOutcome.response 201 (Json.num 1)) ≠ some (Json.num 1) :=
  ⟨by decide, by decide, rfl, fun h => Option.noConfusion h⟩

/-- Claim C6 (amended): the gateway returns the parsed body exactly on HTTP
status 200; any other status — including non-200 2xx statuses — and any
transport error yields `none`, and nothing is raised to the caller (the
embedding is a total function into `Option`). -/
theorem fetch_account_api_spec :
    (∀ b : Json, fetch_account_api (HttpOutcome.response 200 b) = some b) ∧
    (∀ (s : Nat) (b : Json), s ≠ 200 →
      fetch_account_api (HttpOutcome.response s b) = none) ∧
    fetch_account_api HttpOutcome.raised = none := by
  refine ⟨fun b => rfl, fun s b hs => ?_, rfl⟩
  simp [fetch_account_api, hs]

/-- Witness for C6 (amended): a 503 response yields `none`. -/
theorem fetch_account_api_spec_witness :
    fetch_account_api (HttpOutcome.response 503 Json.null) = none :=
  fetch_account_api_spec.2.1 503 Json.null (by decide)

/-- One delivery sweep of `broadcast_to_clients` (`backend/main.py`):
iterate over every currently connected client, attempt `send_text` with the
serialized payload, and collect the clients whose send raised into the
`disconnected` set.  `sendOk c = false` models "this client's send raises".
The first component lists every attempted delivery in iteration order; the
second is the `disconnected` collection. -/
def broadcastSweep (sendOk : Nat → Bool) (payload : String) :
    List Nat → List (Nat × String) × List Nat
  | [] => ([], [])
  | c :: rest =>
    let r := broadcastSweep sendOk payload rest
    ((c, payload) :: r.1, if sendOk c then r.2 else c :: r.2)

/-- Broadcast hub from `backend/main.py` (`broadcast_to_clients`): on an
empty subscriber set return immediately; otherwise serialize the message
once, sweep over all subscribers, and only after the sweep discard every
subscriber whose send raised.  Returns the attempted deliveries and the
subscriber set after the call. -/
def broadcast_to_clients (clients : List Nat) (sendOk : Nat → Bool)
    (message : Json) : List (Nat × String) × List Nat :=
  if clients.isEmpty then ([], clients)
  else
    let message_json := dumps message
    let r := broadcastSweep sendOk message_json clients
    (r.1, clients.filter (fun c => decide (c ∉ r.2)))

theorem broadcastSweep_fst (sendOk : Nat → Bool) (payload : String)
    (l : List Nat) :
    (broadcastSweep sendOk payload l).1 = l.map (fun c => (c, payload)) := by
  induction l with
  | nil => rfl
  | cons c rest ih => simp [broadcastSweep, ih]

theorem broadcastSweep_snd (sendOk : Nat → Bool) (payload : String)
    (l : List Nat) :
    (broadcastSweep sendOk payload l).2 = l.filter (fun c => !sendOk c) := by
  induction l with
  | nil => rfl
  | cons c rest ih =>
    cases h : sendOk c <;> simp [broadcastSweep, ih, h, List.filter]

/-- Claim C5: `broadcast` serializes the message once and attempts delivery
to every current subscriber exactly once, in order, each attempt carrying
the one serialized payload (so a raise by one subscriber neither skips any
other subscriber nor triggers a retry); after the sweep exactly the
subscribers whose send raised are removed from the set. -/
theorem broadcast_to_clients_spec (clients : List Nat) (sendOk : Nat → Bool)
    (message : Json) :
    (broadcast_to_clients clients sendOk message).1 =
        clients.map (fun c => (c, dumps message)) ∧
    (broadcast_to_clients clients sendOk message).2 =
        clients.filter (fun c => sendOk c) := by
  by_cases hc : clients = []
  · subst hc
    simp [broadcast_to_clients]
  · have hne : clients.isEmpty = false := by
      simpa [List.isEmpty_iff] using hc
    rw [broadcast_to_clients, hne]
    simp only [Bool.false_eq_true, if_false]
    refine ⟨broadcastSweep_fst .., ?_⟩
    rw [broadcastSweep_snd]
    refine List.filter_congr ?_
    intro c hcmem
    cases hok : sendOk c <;> simp [List.mem_filter, hcmem, hok]

/-- Concrete instance of C5, the spec's three-subscriber scenario: with
subscriber 2's send raising, subscribers 1 and 3 are still attempted with
the same payload, and subscriber 2 alone is removed from the set. -/
theorem broadcast_to_clients_three :
    (broadcast_to_clients [1, 2, 3] (fun c => c != 2) Json.null).1 =
        [(1, "null"), (2, "null"), (3, "null")] ∧
    (broadcast_to_clients [1, 2, 3] (fun c => c != 2) Json.null).2 = [1, 3] := by
  constructor <;> rfl

/-- Base reconnect delay of the order-book stream client
(`backend/main.py`, `orderbook_websocket_client`): `base_delay = 5`. -/
def orderbook_base_delay : Nat := 5

/-- Delay cap of the order-book stream client: `max_delay = 300`. -/
def orderbook_max_delay : Nat := 300

/-- Unjittered reconnect delay for a given `retry_count` (the attempt
number, already incremented):
`delay = min(base_delay * (2 ** min(retry_count - 1, 6)), max_delay)`. -/
def reconnect_delay (retry_count : Nat) : Nat :=
  min (orderbook_base_delay * 2 ^ (min (retry_count - 1) 6)) orderbook_max_delay

/-- Actual sleep before reconnecting: the unjittered delay multiplied by the
jitter factor drawn by `random.uniform(0.5, 1.5)`. -/
def reconnect_sleep (retry_count : Nat) (jitter : ℚ) : ℚ :=
  (reconnect_delay retry_count : ℚ) * jitter

/-- Claim C7: the unjittered reconnect delay for attempt `k` equals
`min(5 * 2^min(k-1, 6), 300)`; over attempts 1..8 it is non-decreasing and
equals 300 from attempt 7 onward; and for any jitter factor in [1/2, 3/2]
the actual sleep lies within [1/2, 3/2] times the unjittered delay. -/
theorem reconnect_backoff_spec :
    (∀ k : Nat, reconnect_delay k = min (5 * 2 ^ (min (k - 1) 6)) 300) ∧
    (∀ k k' : Nat, 1 ≤ k → k ≤ k' → k' ≤ 8 →
      reconnect_delay k ≤ reconnect_delay k') ∧
    (∀ k : Nat, 7 ≤ k → reconnect_delay k = 300) ∧
    (∀ (k : Nat) (j : ℚ), mkRat 1 2 ≤ j → j ≤ mkRat 3 2 →
      (reconnect_delay k : ℚ) * mkRat 1 2 ≤ reconnect_sleep k j ∧
        reconnect_sleep k j ≤ (reconnect_delay k : ℚ) * mkRat 3 2) := by
  refine ⟨fun k => rfl, ?_, ?_, ?_⟩
  · intro k k' _ hkk' _
    unfold reconnect_delay
    refine min_le_min (Nat.mul_le_mul_left _ ?_) le_rfl
    exact Nat.pow_le_pow_right (by norm_num)
      (min_le_min (Nat.sub_le_sub_right hkk' 1) le_rfl)
  · intro k hk
    have h6 : min (k - 1) 6 = 6 := min_eq_right (by omega)
    simp [reconnect_delay, orderbook_base_delay, orderbook_max_delay, h6]
  · intro k j hlo hhi
    have hd : (0 : ℚ) ≤ (reconnect_delay k : ℚ) := Nat.cast_nonneg _
    exact ⟨mul_le_mul_of_nonneg_left hlo hd, mul_le_mul_of_nonneg_left hhi hd⟩

/-- Witness for C7: the spec applied at concrete attempts — attempt 2's
delay is at most attempt 3's, attempt 7's delay is 300, and with jitter
factor 1 the sleep for attempt 4 lies within the stated band. -/
theorem reconnect_backoff_spec_witness :
    reconnect_delay 2 ≤ reconnect_delay 3 ∧ reconnect_delay 7 = 300 ∧
      ((reconnect_delay 4 : ℚ) * mkRat 1 2 ≤ reconnect_sleep 4 1 ∧
        reconnect_sleep 4 1 ≤ (reconnect_delay 4 : ℚ) * mkRat 3 2) :=
  ⟨reconnect_backoff_spec.2.1 2 3 (by decide) (by decide) (by decide),
   reconnect_backoff_spec.2.2.1 7 (by decide),
   reconnect_backoff_spec.2.2.2 4 1 (by decide) (by decide)⟩

/-- Assoc-list read: Python `d[k]` / `d.get(k)` on a dict represented as a
key-unique association list. -/
def alistGet {α β : Type} [DecidableEq α] : List (α × β) → α → Option β
  | [], _ => none
  | (k', v) :: rest, k => if k' = k then some v else alistGet rest k

/-- Assoc-list write: Python `d[k] = v`. -/
def alistSet {α β : Type} [DecidableEq α] : List (α × β) → α → β → List (α × β)
  | [], k, v => [(k, v)]
  | (k', v') :: rest, k, v =>
    if k' = k then (k, v) :: rest else (k', v') :: alistSet rest k v

/-- Assoc-list delete: Python `del d[k]` under the dict unique-key
invariant. -/
def alistDel {α β : Type} [DecidableEq α] (l : List (α × β)) (k : α) :
    List (α × β) :=
  l.filter (fun p => decide (p.1 ≠ k))

theorem alistGet_set_same {α β : Type} [DecidableEq α] (l : List (α × β))
    (k : α) (v : β) : alistGet (alistSet l k v) k = some v := by
  induction l with
  | nil => simp [alistGet, alistSet]
  | cons p rest ih =>
    by_cases h : p.1 = k
    · obtain ⟨k', v'⟩ := p
      simp_all [alistGet, alistSet]
    · obtain ⟨k', v'⟩ := p
      simp_all [alistGet, alistSet]

theorem alistGet_set_ne {α β : Type} [DecidableEq α] (l : List (α × β))
    (k k' : α) (v : β) (h : k ≠ k') :
    alistGet (alistSet l k v) k' = alistGet l k' := by
  induction l with
  | nil => simp [alistGet, alistSet, h]
  | cons p rest ih =>
    obtain ⟨k₀, v₀⟩ := p
    by_cases h0 : k₀ = k
    · subst h0
      simp [alistGet, alistSet, h]
    · simp [alistGet, alistSet, h0, ih]

theorem alistGet_del_same {α β : Type} [DecidableEq α] (l : List (α × β))
    (k : α) : alistGet (alistDel l k) k = none := by
  induction l with
  | nil => rfl
  | cons p rest ih =>
    obtain ⟨k₀, v₀⟩ := p
    by_cases h0 : k₀ = k
    · subst h0
      simpa [alistDel, List.filter] using ih
    · simpa [alistDel, List.filter, h0, alistGet] using ih

theorem alistGet_del_ne {α β : Type} [DecidableEq α] (l : List (α × β))
    (k k' : α) (h : k' ≠ k) :
    alistGet (alistDel l k) k' = alistGet l k' := by
  induction l with
  | nil => rfl
  | cons p rest ih =>
    obtain ⟨k₀, v₀⟩ := p
    by_cases h0 : k₀ = k
    · subst h0
      simpa [alistDel, List.filter, alistGet, Ne.symm h] using ih
    · by_cases h1 : k₀ = k'
      · subst h1
        simp [alistDel, List.filter, h0, alistGet]
      · simpa [alistDel, List.filter, alistGet, h0, h1] using ih

/-- Per-account cache from `backend/main.py` (`AccountCache`): the four
polled fields (Python `None` is `Json.null`) and the per-field last-update
timestamp dict. -/
structure AccountCache where
  positions : Json
  balance : Json
  trades : Json
  orders : Json
  last_update : List (String × ℚ)

/-- Result of one per-account fetch inside an `asyncio.gather(...,
return_exceptions=True)` fan-out: either an exception object, or the value
`fetch_account_api` returned (Python `None` is `Json.null`). -/
inductive FetchRes where
  | exn : FetchRes
  | val (v : Json) : FetchRes

/-- Payload-relevant part of the `account_update` broadcast message built by
`poll_account_fast_data`: each of `positions` / `balance` carries the value
only when that field is in `changes`, else Python `None` (here
`Option.none`). -/
structure AccountUpdateMsg where
  account_id : String
  positions : Option Json
  balance : Option Json
  timestamp : ℚ

/-- Positions half of the fast poll (`backend/main.py`,
`poll_account_fast_data`): skip on a gather exception or a `None` fetch;
on a structurally changed value write the field and its timestamp together
and record `"positions"` in `changes`. -/
def fastStepPositions (cache : AccountCache) (new_positions : FetchRes)
    (now : ℚ) : AccountCache × List String :=
  match new_positions with
  | .exn => (cache, [])
  | .val v =>
    if !v.isNull && data_changed cache.positions v then
      ({ cache with
          positions := v
          last_update := alistSet cache.last_update "positions" now },
        ["positions"])
    else (cache, [])

/-- Balance half of the fast poll, run after the positions half on the
cache it produced. -/
def fastStepBalance (cache : AccountCache) (changes : List String)
    (new_balance : FetchRes) (now : ℚ) : AccountCache × List String :=
  match new_balance with
  | .exn => (cache, changes)
  | .val v =>
    if !v.isNull && data_changed cache.balance v then
      ({ cache with
          balance := v
          last_update := alistSet cache.last_update "balance" now },
        changes ++ ["balance"])
    else (cache, changes)

/-- Fast poller for one account (`backend/main.py`,
`poll_account_fast_data`): process the positions fetch, then the balance
fetch, and if anything changed emit one `account_update` message carrying
only the changed fields.  The persistence enqueue is an external effect and
is not part of the cache/broadcast state modelled here. -/
def poll_account_fast_data (cache : AccountCache) (account_id : String)
    (new_positions new_balance : FetchRes) (now : ℚ) :
    AccountCache × List AccountUpdateMsg :=
  let s1 := fastStepPositions cache new_positions now
  let s2 := fastStepBalance s1.1 s1.2 new_balance now
  if s2.2.isEmpty then (s2.1, [])
  else
    (s2.1,
      [{ account_id := account_id,
         positions := if s2.2.contains "positions" then some s2.1.positions else none,
         balance := if s2.2.contains "balance" then some s2.1.balance else none,
         timestamp := now }])

/-- Payload-relevant part of an `orders_update` broadcast message. -/
structure OrdersMsg where
  account_id : String
  orders : Json
  timestamp : ℚ

/-- Orders poller for one account (`backend/main.py`,
`poll_account_orders`): on a non-`None` structurally changed fetch, write
the field and its timestamp together and emit one `orders_update`
message. -/
def poll_account_orders (cache : AccountCache) (account_id : String)
    (new_orders : Json) (now : ℚ) : AccountCache × List OrdersMsg :=
  if !new_orders.isNull && data_changed cache.orders new_orders then
    ({ cache with
        orders := new_orders
        last_update := alistSet cache.last_update "orders" now },
      [{ account_id := account_id, orders := new_orders, timestamp := now }])
  else (cache, [])

/-- Payload-relevant part of a `trades_update` broadcast message. -/
structure TradesMsg where
  account_id : String
  trades : Json
  timestamp : ℚ

/-- Closed-positions poller for one account (`backend/main.py`,
`poll_account_trades`). -/
def poll_account_trades (cache : AccountCache) (account_id : String)
    (new_trades : Json) (now : ℚ) : AccountCache × List TradesMsg :=
  if !new_trades.isNull && data_changed cache.trades new_trades then
    ({ cache with
        trades := new_trades
        last_update := alistSet cache.last_update "trades" now },
      [{ account_id := account_id, trades := new_trades, timestamp := now }])
  else (cache, [])

theorem fastStepPositions_of_unchanged (cache : AccountCache) (v : Json)
    (now : ℚ) (h : data_changed cache.positions v = false) :
    fastStepPositions cache (FetchRes.val v) now = (cache, []) := by
  simp [fastStepPositions, h]

theorem fastStepBalance_of_unchanged (cache : AccountCache)
    (changes : List String) (v : Json) (now : ℚ)
    (h : data_changed cache.balance v = false) :
    fastStepBalance cache changes (FetchRes.val v) now = (cache, changes) := by
  simp [fastStepBalance, h]

theorem fastStepBalance_frame (cache : AccountCache) (changes : List String)
    (fb : FetchRes) (now : ℚ) :
    (fastStepBalance cache changes fb now).1.positions = cache.positions ∧
    (fastStepBalance cache changes fb now).1.orders = cache.orders ∧
    (fastStepBalance cache changes fb now).1.trades = cache.trades ∧
    alistGet (fastStepBalance cache changes fb now).1.last_update "positions" =
      alistGet cache.last_update "positions" ∧
    ((fastStepBalance cache changes fb now).2 = changes ∨
      (fastStepBalance cache changes fb now).2 = changes ++ ["balance"]) := by
  cases fb with
  | exn => exact ⟨rfl, rfl, rfl, rfl, Or.inl rfl⟩
  | val v =>
    by_cases h : (!v.isNull && data_changed cache.balance v) = true
    · refine ⟨?_, ?_, ?_, ?_, Or.inr ?_⟩ <;>
        simp [fastStepBalance, h, alistGet_set_ne _ _ _ _ (by decide : "balance" ≠ "positions")]
    · refine ⟨?_, ?_, ?_, ?_, Or.inl ?_⟩ <;>
        simp [fastStepBalance, h]

theorem fastStepPositions_frame (cache : AccountCache) (fp : FetchRes)
    (now : ℚ) :
    (fastStepPositions cache fp now).1.balance = cache.balance ∧
    (fastStepPositions cache fp now).1.orders = cache.orders ∧
    (fastStepPositions cache fp now).1.trades = cache.trades ∧
    alistGet (fastStepPositions cache fp now).1.last_update "balance" =
      alistGet cache.last_update "balance" ∧
    ((fastStepPositions cache fp now).2 = [] ∨
      (fastStepPositions cache fp now).2 = ["positions"]) := by
  cases fp with
  | exn => exact ⟨rfl, rfl, rfl, rfl, Or.inl rfl⟩
  | val v =>
    by_cases h : (!v.isNull && data_changed cache.positions v) = true
    · refine ⟨?_, ?_, ?_, ?_, Or.inr ?_⟩ <;>
        simp [fastStepPositions, h, alistGet_set_ne _ _ _ _ (by decide : "positions" ≠ "balance")]
    · refine ⟨?_, ?_, ?_, ?_, Or.inl ?_⟩ <;>
        simp [fastStepPositions, h]

/-- Claim C4: a poll whose fetch comes back structurally identical (under
key-sorted comparison) to the cached value leaves that field, its
`last_update` entry, and every cache field the poll does not own unchanged,
and emits no broadcast payload for that field; when every fetch of the poll
is identical the cache is untouched and nothing at all is broadcast.  The
five conjuncts cover: the fast poll's positions fetch, the fast poll's
balance fetch, the fast poll with both fetches identical, the orders poll,
and the trades poll. -/
theorem poll_unchanged_frame_effect
    (cache : AccountCache) (aid : String) (vp vb vo vt : Json)
    (fb fp : FetchRes) (now : ℚ) :
    (data_changed cache.positions vp = false →
      (poll_account_fast_data cache aid (FetchRes.val vp) fb now).1.positions = cache.positions ∧
      alistGet (poll_account_fast_data cache aid (FetchRes.val vp) fb now).1.last_update "positions" =
        alistGet cache.last_update "positions" ∧
      (poll_account_fast_data cache aid (FetchRes.val vp) fb now).1.orders = cache.orders ∧
      (poll_account_fast_data cache aid (FetchRes.val vp) fb now).1.trades = cache.trades ∧
      ∀ m ∈ (poll_account_fast_data cache aid (FetchRes.val vp) fb now).2,
        m.positions = none) ∧
    (data_changed cache.balance vb = false →
      (poll_account_fast_data cache aid fp (FetchRes.val vb) now).1.balance = cache.balance ∧
      alistGet (poll_account_fast_data cache aid fp (FetchRes.val vb) now).1.last_update "balance" =
        alistGet cache.last_update "balance" ∧
      (poll_account_fast_data cache aid fp (FetchRes.val vb) now).1.orders = cache.orders ∧
      (poll_account_fast_data cache aid fp (FetchRes.val vb) now).1.trades = cache.trades ∧
      ∀ m ∈ (poll_account_fast_data cache aid fp (FetchRes.val vb) now).2,
        m.balance = none) ∧
    (data_changed cache.positions vp = false →
      data_changed cache.balance vb = false →
      poll_account_fast_data cache aid (FetchRes.val vp) (FetchRes.val vb) now = (cache, [])) ∧
    (data_changed cache.orders vo = false →
      poll_account_orders cache aid vo now = (cache, [])) ∧
    (data_changed cache.trades vt = false →
      poll_account_trades cache aid vt now = (cache, [])) ∧
    (data_changed cache.positions vp = false →
      poll_account_fast_data cache aid (FetchRes.val vp) fb now =
        poll_account_fast_data cache aid FetchRes.exn fb now) ∧
    (data_changed cache.balance vb = false →
      poll_account_fast_data cache aid fp (FetchRes.val vb) now =
        poll_account_fast_data cache aid fp FetchRes.exn now) := by
  refine ⟨?_, ?_, ?_, ?_, ?_, ?_, ?_⟩
  · intro hp
    have h1 := fastStepPositions_of_unchanged cache vp now hp
    obtain ⟨hb1, hb2, hb3, hb4, hb5⟩ := fastStepBalance_frame cache [] fb now
    rcases hb5 with hc | hc <;>
      simp [poll_account_fast_data, h1, hc, hb1, hb2, hb3, hb4]
  · intro hb
    obtain ⟨hp1, hp2, hp3, hp4, hp5⟩ := fastStepPositions_frame cache fp now
    have hbb : data_changed (fastStepPositions cache fp now).1.balance vb = false := by
      rw [hp1]; exact hb
    have h2 := fastStepBalance_of_unchanged (fastStepPositions cache fp now).1
      (fastStepPositions cache fp now).2 vb now hbb
    rcases hp5 with hc | hc <;> rw [hc] at h2 <;>
      simp [poll_account_fast_data, hc, h2, hp1, hp2, hp3, hp4]
  · intro hp hb
    have h1 := fastStepPositions_of_unchanged cache vp now hp
    have h2 := fastStepBalance_of_unchanged cache [] vb now hb
    simp [poll_account_fast_data, h1, h2]
  · intro ho
    simp [poll_account_orders, ho]
  · intro ht
    simp [poll_account_trades, ht]
  · intro hp
    have h1 := fastStepPositions_of_unchanged cache vp now hp
    have h2 : fastStepPositions cache FetchRes.exn now = (cache, []) := rfl
    rw [poll_account_fast_data, poll_account_fast_data, h1, h2]
  · intro hb
    have h1 : ∀ ch, fastStepBalance (fastStepPositions cache fp now).1 ch
        (FetchRes.val vb) now = ((fastStepPositions cache fp now).1, ch) := by
      intro ch
      apply fastStepBalance_of_unchanged
      rw [(fastStepPositions_frame cache fp now).1]
      exact hb
    have h2 : ∀ ch, fastStepBalance (fastStepPositions cache fp now).1 ch
        FetchRes.exn now = ((fastStepPositions cache fp now).1, ch) := fun ch => rfl
    rw [poll_account_fast_data, poll_account_fast_data, h1, h2]

/-- Concrete per-account cache used to witness the frame-effect theorem. -/
def sampleCache : AccountCache :=
  ⟨Json.num 7, Json.num 8, Json.num 10, Json.num 9,
    [("positions", 0), ("balance", 0), ("trades", 0), ("orders", 0)]⟩

/-- Witness for C4: the frame-effect theorem applied to a concrete cache
whose fetches all come back identical. -/
theorem poll_unchanged_frame_effect_witness :
    data_changed sampleCache.positions (Json.num 7) = false ∧
    (poll_account_fast_data sampleCache "acct_0" (FetchRes.val (Json.num 7)) FetchRes.exn 5).1.positions = sampleCache.positions ∧
    (poll_account_fast_data sampleCache "acct_0" FetchRes.exn (FetchRes.val (Json.num 8)) 5).1.balance = sampleCache.balance ∧
    poll_account_fast_data sampleCache "acct_0" (FetchRes.val (Json.num 7)) (FetchRes.val (Json.num 8)) 5 = (sampleCache, []) ∧
    poll_account_orders sampleCache "acct_0" (Json.num 9) 5 = (sampleCache, []) ∧
    poll_account_trades sampleCache "acct_0" (Json.num 10) 5 = (sampleCache, []) ∧
    poll_account_fast_data sampleCache "acct_0" (FetchRes.val (Json.num 7)) FetchRes.exn 5 =
      poll_account_fast_data sampleCache "acct_0" FetchRes.exn FetchRes.exn 5 := by
  have h := poll_unchanged_frame_effect sampleCache "acct_0" (Json.num 7)
    (Json.num 8) (Json.num 9) (Json.num 10) FetchRes.exn FetchRes.exn 5
  exact ⟨by decide, (h.1 (by decide)).1, (h.2.1 (by decide)).1,
    h.2.2.1 (by decide) (by decide), h.2.2.2.1 (by decide),
    h.2.2.2.2.1 (by decide), h.2.2.2.2.2.1 (by decide)⟩

/-- Ordered margin-usage thresholds from `backend/margin_alerts.py`
(`MARGIN_THRESHOLDS = [0.70, 0.80, 0.90, 0.95]`). -/
def MARGIN_THRESHOLDS : List ℚ :=
  [mkRat 70 100, mkRat 80 100, mkRat 90 100, mkRat 95 100]

/-- Alert bookkeeping from `backend/margin_alerts.py` (`AlertState`): the
`(account_id, threshold) -> last alert time` dict and the cooldown length.
Wall-clock instants are modelled as exact integer minutes. -/
structure AlertState where
  sent_alerts : List ((String × ℚ) × Int)
  cooldown_minutes : Int

/-- Cooldown test (`AlertState.can_send_alert`): a key never alerted may
send; otherwise the elapsed time must strictly exceed the cooldown. -/
def AlertState.can_send_alert (st : AlertState) (account_id : String)
    (threshold : ℚ) (now : Int) : Bool :=
  match alistGet st.sent_alerts (account_id, threshold) with
  | none => true
  | some last => decide (now - last > st.cooldown_minutes)

/-- Record an alert as just sent (`AlertState.mark_alert_sent`). -/
def AlertState.mark_alert_sent (st : AlertState) (account_id : String)
    (threshold : ℚ) (now : Int) : AlertState :=
  { st with sent_alerts := alistSet st.sent_alerts (account_id, threshold) now }

/-- Drop the entry for one `(account, threshold)` pair
(`AlertState.reset_for_account`); deleting an absent key is a no-op, as in
the guarded Python `del`. -/
def AlertState.reset_for_account (st : AlertState) (account_id : String)
    (threshold : ℚ) : AlertState :=
  { st with sent_alerts := alistDel st.sent_alerts (account_id, threshold) }

/-- Highest crossed threshold (`MarginAlertManager.get_threshold_level`):
walk the thresholds from highest to lowest and return the first one the
margin reaches, if any. -/
def get_threshold_level (margin_r : ℚ) : Option ℚ :=
  MARGIN_THRESHOLDS.reverse.find? (fun t => decide (margin_r ≥ t))

/-- Notification channels invoked by `check_and_alert`. -/
inductive Channel where
  | telegram : Channel
  | pushover : Channel
  | sms : Channel
  | phone_call : Channel
deriving DecidableEq

/-- Observable outcome of one `check_and_alert` evaluation: the triggered
threshold (the `threshold_triggered` result key), whether the cooldown
short-circuit was taken (the `cooldown_active` result key), which channels
were invoked, which reported success (`alerts_sent`), and the updated
alert state. -/
structure CheckResult where
  threshold_triggered : Option ℚ
  cooldown_active : Bool
  attempted : List Channel
  alerts_sent : List Channel
  state : AlertState

/-- Core alert logic from `backend/margin_alerts.py`
(`MarginAlertManager.check_and_alert`).  Below every threshold the state is
reset for each threshold and nothing is sent.  On a crossed threshold whose
cooldown is active the call returns untouched state.  Otherwise the
channels applicable to the tier are invoked in source order — Telegram and
Pushover at 0.70+, SMS at 0.80+, a phone call at 0.90+ — `channel_ok`
gives each send's success (each Python send catches its own exceptions and
returns a bool), and the alert is marked sent regardless of channel
outcomes.  Message-text composition is string formatting with no effect on
state and is not modelled. -/
def check_and_alert (st : AlertState) (account_id : String) (margin_r : ℚ)
    (now : Int) (channel_ok : Channel → Bool) : CheckResult :=
  match get_threshold_level margin_r with
  | none =>
    { threshold_triggered := none
      cooldown_active := false
      attempted := []
      alerts_sent := []
      state := MARGIN_THRESHOLDS.foldl
        (fun s t => s.reset_for_account account_id t) st }
  | some threshold =>
    if !(st.can_send_alert account_id threshold now) then
      { threshold_triggered := some threshold
        cooldown_active := true
        attempted := []
        alerts_sent := []
        state := st }
    else
      let attempted :=
        (if threshold ≥ mkRat 70 100 then [Channel.telegram, Channel.pushover] else []) ++
        (if threshold ≥ mkRat 80 100 then [Channel.sms] else []) ++
        (if threshold ≥ mkRat 90 100 then [Channel.phone_call] else [])
      { threshold_triggered := some threshold
        cooldown_active := false
        attempted := attempted
        alerts_sent := attempted.filter channel_ok
        state := st.mark_alert_sent account_id threshold now }

/-- Tier at which an evaluation actually fired an alert (threshold crossed
and cooldown clear — exactly the evaluations that reach
`mark_alert_sent`), if any. -/
def alertFiredAt (res : CheckResult) : Option ℚ :=
  match res.threshold_triggered with
  | none => none
  | some t => if res.cooldown_active then none else some t

theorem alistGet_del_of_none {α β : Type} [DecidableEq α]
    (l : List (α × β)) (k k' : α) (h : alistGet l k' = none) :
    alistGet (alistDel l k) k' = none := by
  by_cases hk : k' = k
  · subst hk
    exact alistGet_del_same l k'
  · rw [alistGet_del_ne l k k' hk]
    exact h

theorem get_threshold_level_mem (margin_r t : ℚ)
    (h : get_threshold_level margin_r = some t) : t ∈ MARGIN_THRESHOLDS := by
  have := List.mem_of_find?_eq_some h
  exact List.mem_reverse.mp this

/-- Counterexample to claim C1 as stated: with an alert recorded for the
0.80 threshold, an evaluation at margin 0.75 — below 0.80 but still above
0.70 — does not clear the 0.80 entry (the code resets state only when the
margin is below every threshold), and a subsequent crossing of 0.80 inside
the cooldown window is suppressed instead of re-alerting. -/
theorem check_and_alert_reset_counterexample :
    mkRat 80 100 ∈ MARGIN_THRESHOLDS ∧
    mkRat 75 100 < mkRat 80 100 ∧
    alistGet (check_and_alert ⟨[(("acct_0", mkRat 80 100), 0)], 30⟩ "acct_0"
        (mkRat 75 100) 1 (fun _ => true)).state.sent_alerts
      ("acct_0", mkRat 80 100) = some 0 ∧
    (check_and_alert
        (check_and_alert ⟨[(("acct_0", mkRat 80 100), 0)], 30⟩ "acct_0"
          (mkRat 75 100) 1 (fun _ => true)).state
        "acct_0" (mkRat 85 100) 2 (fun _ => true)).cooldown_active = true := by
  refine ⟨by decide, by decide, by decide, by decide⟩

/-- Claim C1 (amended): per-threshold alert state for an account is cleared
only by an evaluation that observes the margin below every threshold
(`get_threshold_level` returns none); such an evaluation clears the state
for all thresholds at once, so any later crossing fires a fresh alert even
inside the previous alert's cooldown window.  A drop below a threshold that
still crosses a lower threshold clears nothing. -/
theorem check_and_alert_reset_amended
    (st : AlertState) (account_id : String) (margin_r margin_r' : ℚ)
    (now now' : Int) (ok ok' : Channel → Bool) (t : ℚ)
    (h : get_threshold_level margin_r = none) :
    (∀ u ∈ MARGIN_THRESHOLDS,
      alistGet (check_and_alert st account_id margin_r now ok).state.sent_alerts
        (account_id, u) = none) ∧
    (get_threshold_level margin_r' = some t →
      alertFiredAt
        (check_and_alert (check_and_alert st account_id margin_r now ok).state
          account_id margin_r' now' ok') = some t) := by
  have hst : (check_and_alert st account_id margin_r now ok).state.sent_alerts =
      alistDel (alistDel (alistDel (alistDel st.sent_alerts
        (account_id, mkRat 70 100)) (account_id, mkRat 80 100))
        (account_id, mkRat 90 100)) (account_id, mkRat 95 100) := by
    simp [check_and_alert, h, MARGIN_THRESHOLDS, AlertState.reset_for_account,
      List.foldl]
  have hAll : ∀ u ∈ MARGIN_THRESHOLDS,
      alistGet (check_and_alert st account_id margin_r now ok).state.sent_alerts
        (account_id, u) = none := by
    intro u hu
    rw [hst]
    simp only [MARGIN_THRESHOLDS, List.mem_cons, List.not_mem_nil, or_false] at hu
    rcases hu with rfl | rfl | rfl | rfl
    · exact alistGet_del_of_none _ _ _ (alistGet_del_of_none _ _ _
        (alistGet_del_of_none _ _ _ (alistGet_del_same _ _)))
    · exact alistGet_del_of_none _ _ _ (alistGet_del_of_none _ _ _
        (alistGet_del_same _ _))
    · exact alistGet_del_of_none _ _ _ (alistGet_del_same _ _)
    · exact alistGet_del_same _ _
  refine ⟨hAll, ?_⟩
  intro h'
  have ht : t ∈ MARGIN_THRESHOLDS := get_threshold_level_mem margin_r' t h'
  set st2 := (check_and_alert st account_id margin_r now ok).state with hst2
  have hcs : st2.can_send_alert account_id t now' = true := by
    simp [AlertState.can_send_alert, hAll t ht]
  simp [check_and_alert, h', hcs, alertFiredAt]

/-- Witness for C1 (amended): from a state holding a recorded 0.70 alert, an
evaluation at margin 0.50 clears the 0.70 entry, and a following evaluation
at 0.75 fires a fresh 0.70-tier alert even though only one minute of the
30-minute cooldown has passed. -/
theorem check_and_alert_reset_amended_witness :
    alistGet (check_and_alert ⟨[(("acct_0", mkRat 70 100), 0)], 30⟩ "acct_0"
        (mkRat 50 100) 1 (fun _ => true)).state.sent_alerts
      ("acct_0", mkRat 70 100) = none ∧
    alertFiredAt
      (check_and_alert
        (check_and_alert ⟨[(("acct_0", mkRat 70 100), 0)], 30⟩ "acct_0"
          (mkRat 50 100) 1 (fun _ => true)).state
        "acct_0" (mkRat 75 100) 2 (fun _ => true)) = some (mkRat 70 100) := by
  have h := check_and_alert_reset_amended ⟨[(("acct_0", mkRat 70 100), 0)], 30⟩
    "acct_0" (mkRat 50 100) (mkRat 75 100) 1 2 (fun _ => true) (fun _ => true)
    (mkRat 70 100) (by decide)
  exact ⟨h.1 (mkRat 70 100) (by decide), h.2 (by decide)⟩

/-- Claim C2: with one account and a cooldown longer than the whole run,
the margin sequence [0.60, 0.72, 0.72, 0.81] fires exactly the alerts
[none, 0.70-tier, none, 0.80-tier]: one alert at 0.70 on the first 0.72,
none on the repeated 0.72 (the cooldown short-circuit is taken for the
0.70 threshold), and one at 0.80 on the 0.81. -/
theorem check_and_alert_sequence_C2 :
    (let st0 : AlertState := ⟨[], 1000000⟩
     let ok : Channel → Bool := fun _ => true
     let r1 := check_and_alert st0 "acct_0" (mkRat 60 100) 0 ok
     let r2 := check_and_alert r1.state "acct_0" (mkRat 72 100) 1 ok
     let r3 := check_and_alert r2.state "acct_0" (mkRat 72 100) 2 ok
     let r4 := check_and_alert r3.state "acct_0" (mkRat 81 100) 3 ok
     [alertFiredAt r1, alertFiredAt r2, alertFiredAt r3, alertFiredAt r4] =
        [none, some (mkRat 70 100), none, some (mkRat 80 100)] ∧
       r3.threshold_triggered = some (mkRat 70 100) ∧
       r3.cooldown_active = true) := by
  decide

/-- Claim C9: channel outcomes are isolated — for any two assignments of
per-channel success/failure, an evaluation invokes exactly the same set of
channels and produces exactly the same alert state; and whenever an alert
fires, every channel applicable to the tier is invoked and the alert is
marked sent (the cooldown starts) regardless of which channels failed. -/
theorem check_and_alert_channel_isolation
    (st : AlertState) (account_id : String) (margin_r : ℚ) (now : Int)
    (ok ok' : Channel → Bool) (t : ℚ) :
    (check_and_alert st account_id margin_r now ok).attempted =
        (check_and_alert st account_id margin_r now ok').attempted ∧
    (check_and_alert st account_id margin_r now ok).state =
        (check_and_alert st account_id margin_r now ok').state ∧
    (get_threshold_level margin_r = some t →
      st.can_send_alert account_id t now = true →
      alistGet (check_and_alert st account_id margin_r now ok).state.sent_alerts
          (account_id, t) = some now ∧
      (check_and_alert st account_id margin_r now ok).attempted =
        (if t ≥ mkRat 70 100 then [Channel.telegram, Channel.pushover] else []) ++
        (if t ≥ mkRat 80 100 then [Channel.sms] else []) ++
        (if t ≥ mkRat 90 100 then [Channel.phone_call] else [])) := by
  cases hgt : get_threshold_level margin_r with
  | none =>
    refine ⟨?_, ?_, ?_⟩
    · simp [check_and_alert, hgt]
    · simp [check_and_alert, hgt]
    · intro h'
      simp [hgt] at h'
  | some u =>
    cases hcs : st.can_send_alert account_id u now with
    | false =>
      refine ⟨?_, ?_, ?_⟩
      · simp [check_and_alert, hgt, hcs]
      · simp [check_and_alert, hgt, hcs]
      · intro h' hcs'
        injection h' with h''
        rw [h''] at hcs
        rw [hcs'] at hcs
        simp at hcs
    | true =>
      refine ⟨?_, ?_, ?_⟩
      · simp [check_and_alert, hgt, hcs]
      · simp [check_and_alert, hgt, hcs]
      · intro h' _
        injection h' with h''
        subst h''
        constructor
        · simp [check_and_alert, hgt, hcs, AlertState.mark_alert_sent,
            alistGet_set_same]
        · simp [check_and_alert, hgt, hcs]

/-- Witness for C9: at margin 0.85 from a clean state, an all-failing
channel assignment and an all-succeeding one invoke the same channels
(Telegram, Pushover, SMS) and both record the 0.80 alert as sent. -/
theorem check_and_alert_channel_isolation_witness :
    (check_and_alert ⟨[], 30⟩ "acct_0" (mkRat 85 100) 0 (fun _ => true)).attempted =
        (check_and_alert ⟨[], 30⟩ "acct_0" (mkRat 85 100) 0 (fun _ => false)).attempted ∧
    (check_and_alert ⟨[], 30⟩ "acct_0" (mkRat 85 100) 0 (fun _ => true)).state =
        (check_and_alert ⟨[], 30⟩ "acct_0" (mkRat 85 100) 0 (fun _ => false)).state ∧
    alistGet (check_and_alert ⟨[], 30⟩ "acct_0" (mkRat 85 100) 0
        (fun _ => true)).state.sent_alerts ("acct_0", mkRat 80 100) = some 0 ∧
    (check_and_alert ⟨[], 30⟩ "acct_0" (mkRat 85 100) 0 (fun _ => true)).attempted =
      (if mkRat 80 100 ≥ mkRat 70 100 then [Channel.telegram, Channel.pushover] else []) ++
      (if mkRat 80 100 ≥ mkRat 80 100 then [Channel.sms] else []) ++
      (if mkRat 80 100 ≥ mkRat 90 100 then [Channel.phone_call] else []) := by
  have h := check_and_alert_channel_isolation ⟨[], 30⟩ "acct_0" (mkRat 85 100) 0
    (fun _ => true) (fun _ => false) (mkRat 80 100)
  exact ⟨h.1, h.2.1, (h.2.2 (by decide) (by decide)).1, (h.2.2 (by decide) (by decide)).2⟩

/-- SQL `COALESCE` on two nullable values. -/
def coalesce {α : Type} (a b : Option α) : Option α :=
  match a with
  | some v => some v
  | none => b

/-- Stored row of the `trade_positions` table, with the columns
`save_positions_history` writes.  The `created_at` / `epoch_start` /
`fetched_at` timestamp columns are derived from `created_time` and the
insertion clock and carry no information the claims depend on; the derived
`epoch_number` is kept. -/
structure TradeRow where
  id : Int
  account_id : String
  account_index : Int
  account_name : String
  market : String
  side : String
  size : ℚ
  max_position_size : ℚ
  leverage : ℚ
  open_price : ℚ
  realised_pnl : ℚ
  trade_pnl : ℚ
  funding_fees : ℚ
  open_fees : ℚ
  close_fees : ℚ
  created_time : Int
  epoch_number : Int
  closed_time : Option Int
  exit_price : Option ℚ
  exit_type : Option String

/-- Raw closed-position record as fetched from the exchange: the dict keys
`save_positions_history` reads.  Numeric keys carry the `pos.get(..., 0)`
default already applied; `id`, `closedTime`, `exitPrice` and `exitType` stay
optional because the code treats their falsy values specially. -/
structure PosRecord where
  id : Option Int
  createdTime : Int
  market : String
  side : String
  size : ℚ
  maxPositionSize : ℚ
  leverage : ℚ
  openPrice : ℚ
  realisedPnl : ℚ
  tradePnl : ℚ
  fundingFees : ℚ
  openFees : ℚ
  closeFees : ℚ
  closedTime : Option Int
  exitPrice : Option ℚ
  exitType : Option String

/-- Milliseconds since the Unix epoch of `datetime(2025, 4, 28)` UTC, the
`epoch_1_start` constant of `get_epoch_number`. -/
def EPOCH1_MS : Int := 1745798400000

/-- Week-epoch number of a millisecond timestamp
(`trade_history.get_epoch_number`): whole days since 2025-04-28, floor-divided
into weeks, plus one, clamped below at 1 (`max(1, week_num + 1)`). -/
def get_epoch_number_ms (t : Int) : Int :=
  let wk := Int.fdiv (Int.fdiv (t - EPOCH1_MS) 86400000) 7 + 1
  if (1 : Int) ≤ wk then wk else 1

/-- Conversion of a fetched position dict into the row the INSERT writes
(`save_positions_history`, value list of the SQL statement): falsy
`closedTime` / `exitPrice` / `exitType` become NULL, exactly as
`int(x) if x else None` does. -/
def rowOfPos (account_id : String) (account_index : Int)
    (account_name : String) (p : PosRecord) (pid : Int) : TradeRow :=
  { id := pid
    account_id := account_id
    account_index := account_index
    account_name := account_name
    market := p.market
    side := p.side
    size := p.size
    max_position_size := p.maxPositionSize
    leverage := p.leverage
    open_price := p.openPrice
    realised_pnl := p.realisedPnl
    trade_pnl := p.tradePnl
    funding_fees := p.fundingFees
    open_fees := p.openFees
    close_fees := p.closeFees
    created_time := p.createdTime
    epoch_number := get_epoch_number_ms p.createdTime
    closed_time := match p.closedTime with
      | some v => if v = 0 then none else some v
      | none => none
    exit_price := match p.exitPrice with
      | some v => if v = 0 then none else some v
      | none => none
    exit_type := match p.exitType with
      | some s => if s = "" then none else some s
      | none => none }

/-- Conflict resolution of the upsert (`ON CONFLICT (id) DO UPDATE SET`):
the PnL and fee columns take the excluded (new) values,
`max_position_size` takes the greatest of old and new, the close-side
columns are `COALESCE(EXCLUDED.x, old.x)`, and every other column — in
particular `account_id` and `account_index` — keeps its stored value. -/
def applyConflictUpdate (old new : TradeRow) : TradeRow :=
  { old with
      size := new.size
      max_position_size :=
        if old.max_position_size ≤ new.max_position_size then
          new.max_position_size
        else old.max_position_size
      realised_pnl := new.realised_pnl
      trade_pnl := new.trade_pnl
      funding_fees := new.funding_fees
      open_fees := new.open_fees
      close_fees := new.close_fees
      closed_time := coalesce new.closed_time old.closed_time
      exit_price := coalesce new.exit_price old.exit_price
      exit_type := coalesce new.exit_type old.exit_type }

/-- One `INSERT ... ON CONFLICT (id) DO UPDATE` against the table: update
the matching row in place when the id exists, append a fresh row
otherwise. -/
def upsertRow (table : List TradeRow) (r : TradeRow) : List TradeRow :=
  if table.any (fun q => q.id == r.id) then
    table.map (fun q => if q.id == r.id then applyConflictUpdate q r else q)
  else table ++ [r]

/-- First stored row with the given id (ids are unique under upsert-only
writes, the table's PRIMARY KEY invariant). -/
def rowById (table : List TradeRow) (i : Int) : Option TradeRow :=
  table.find? (fun q => q.id == i)

/-- History archiver write path (`trade_history.save_positions_history`):
for each fetched record, skip it when `id` is falsy, otherwise upsert the
converted row keyed by the exchange-assigned id. -/
def save_positions_history (account_id : String) (account_index : Int)
    (account_name : String) (positions : List PosRecord)
    (table : List TradeRow) : List TradeRow :=
  positions.foldl
    (fun tbl p =>
      match p.id with
      | none => tbl
      | some pid =>
        if pid = 0 then tbl
        else upsertRow tbl (rowOfPos account_id account_index account_name p pid))
    table

theorem upsertRow_length_of_mem (t : List TradeRow) (r : TradeRow)
    (h : t.any (fun q => q.id == r.id) = true) :
    (upsertRow t r).length = t.length := by
  simp [upsertRow, h]

theorem upsertRow_any_id (t : List TradeRow) (r : TradeRow) :
    (upsertRow t r).any (fun q => q.id == r.id) = true := by
  unfold upsertRow
  by_cases h : t.any (fun q => q.id == r.id) = true
  · rw [if_pos h]
    rcases List.any_eq_true.mp h with ⟨q, hq, hid⟩
    refine List.any_eq_true.mpr ⟨applyConflictUpdate q r, ?_, ?_⟩
    · have heq : (fun w => if w.id == r.id then applyConflictUpdate w r else w) q =
          applyConflictUpdate q r := by simp [hid]
      exact heq ▸ List.mem_map_of_mem _ hq
    · simpa [applyConflictUpdate] using hid
  · rw [if_neg h]
    refine List.any_eq_true.mpr ⟨r, ?_, by simp⟩
    simp

theorem rowById_upsert_of_found (t : List TradeRow) (r q : TradeRow)
    (h : rowById t r.id = some q) :
    rowById (upsertRow t r) r.id = some (applyConflictUpdate q r) := by
  unfold rowById at h ⊢
  have hany : t.any (fun w => w.id == r.id) = true :=
    List.any_eq_true.mpr
      ⟨q, List.mem_of_find?_eq_some h, @List.find?_some _ (fun w => w.id == r.id) q t h⟩
  unfold upsertRow
  rw [if_pos hany]
  clear hany
  induction t with
  | nil => simp at h
  | cons w rest ih =>
    by_cases hw : (w.id == r.id) = true
    · rw [@List.find?_cons_of_pos _ (fun v => v.id == r.id) w rest hw] at h
      injection h with h
      subst h
      simp only [List.map_cons, if_pos hw]
      exact @List.find?_cons_of_pos _ (fun v => v.id == r.id)
        (applyConflictUpdate w r) _ (by simpa [applyConflictUpdate] using hw)
    · rw [@List.find?_cons_of_neg _ (fun v => v.id == r.id) w rest hw] at h
      simp only [List.map_cons, if_neg hw]
      rw [@List.find?_cons_of_neg _ (fun v => v.id == r.id) w _ hw]
      exact ih h

/-- Sample closed-position record as first fetched, before the exchange has
populated its exit fields. -/
def samplePos : PosRecord :=
  { id := some 12345
    createdTime := 1747000000000
    market := "ETH-PERP"
    side := "LONG"
    size := mkRat 1 2
    maxPositionSize := mkRat 3 2
    leverage := 10
    openPrice := 2500
    realisedPnl := mkRat 25 10
    tradePnl := 3
    fundingFees := mkRat (-1) 2
    openFees := mkRat 1 4
    closeFees := 0
    closedTime := none
    exitPrice := none
    exitType := none }

/-- The same exchange record fetched again later, now carrying the
populated exit fields. -/
def samplePosExit : PosRecord :=
  { samplePos with
      closedTime := some 1747000500000
      exitPrice := some 2600
      exitType := some "MARKET" }

/-- First-submission row for the sample record. -/
def sampleRow : TradeRow := rowOfPos "acct_0" 0 "Main" samplePos 12345

/-- Second-submission row for the sample record, with exit fields. -/
def sampleRowExit : TradeRow := rowOfPos "acct_0" 0 "Main" samplePosExit 12345

/-- Claim C8: the closed-position upsert is idempotent in row count — a
second submission of an id already stored updates the stored row in place
and never appends; the conflict update takes a newly populated
`exit_price` and keeps the stored account association untouched.  The last
conjunct runs `save_positions_history` end to end: submitting the same
record twice stores one row, and resubmitting it with exit data leaves one
row whose `exit_price` is filled in and whose account is unchanged. -/
theorem history_upsert_spec :
    (∀ (t : List TradeRow) (r r' : TradeRow), r'.id = r.id →
      (upsertRow (upsertRow t r) r').length = (upsertRow t r).length) ∧
    (∀ (t : List TradeRow) (r q : TradeRow), rowById t r.id = some q →
      (upsertRow t r).length = t.length ∧
      rowById (upsertRow t r) r.id = some (applyConflictUpdate q r)) ∧
    (∀ (q r : TradeRow) (v : ℚ), r.exit_price = some v →
      (applyConflictUpdate q r).exit_price = some v) ∧
    (∀ q r : TradeRow,
      (applyConflictUpdate q r).account_id = q.account_id ∧
      (applyConflictUpdate q r).account_index = q.account_index) ∧
    ((save_positions_history "acct_0" 0 "Main" [samplePos, samplePos] []).length = 1 ∧
      (save_positions_history "acct_0" 0 "Main" [samplePosExit]
          (save_positions_history "acct_0" 0 "Main" [samplePos] [])).length = 1 ∧
      (rowById (save_positions_history "acct_0" 0 "Main" [samplePosExit]
          (save_positions_history "acct_0" 0 "Main" [samplePos] [])) 12345).map
        (fun w => w.exit_price) = some (some 2600) ∧
      (rowById (save_positions_history "acct_0" 0 "Main" [samplePosExit]
          (save_positions_history "acct_0" 0 "Main" [samplePos] [])) 12345).map
        (fun w => w.account_id) = some "acct_0") := by
  refine ⟨?_, ?_, ?_, ?_, ?_⟩
  · intro t r r' h
    apply upsertRow_length_of_mem
    rw [h]
    exact upsertRow_any_id t r
  · intro t r q h
    refine ⟨?_, rowById_upsert_of_found t r q h⟩
    apply upsertRow_length_of_mem
    have h' : List.find? (fun w => w.id == r.id) t = some q := h
    exact List.any_eq_true.mpr
      ⟨q, List.mem_of_find?_eq_some h', @List.find?_some _ (fun w => w.id == r.id) q t h'⟩
  · intro q r v h
    simp [applyConflictUpdate, coalesce, h]
  · intro q r
    exact ⟨rfl, rfl⟩
  · refine ⟨by decide, by decide, by decide, by decide⟩

/-- Witness for C8: the upsert theorem applied to the sample record — the
repeated submission keeps one row, the exit-bearing resubmission lands on
the stored row, takes the new `exit_price`, and keeps the account. -/
theorem history_upsert_spec_witness :
    (upsertRow (upsertRow [] sampleRow) sampleRow).length =
        (upsertRow [] sampleRow).length ∧
    rowById (upsertRow [sampleRow] sampleRowExit) sampleRowExit.id =
        some (applyConflictUpdate sampleRow sampleRowExit) ∧
    (applyConflictUpdate sampleRow sampleRowExit).exit_price = some 2600 ∧
    (applyConflictUpdate sampleRow sampleRowExit).account_id = sampleRow.account_id := by
  have h := history_upsert_spec
  exact ⟨h.1 [] sampleRow sampleRow rfl,
    (h.2.1 [sampleRow] sampleRowExit sampleRow (by rfl)).2,
    h.2.2.1 sampleRow sampleRowExit 2600 (by rfl),
    (h.2.2.2.1 sampleRow sampleRowExit).1⟩
